import Mathlib

/-
Verification of the repository-sectioning core of this project: shallow Lean
embeddings of src/GithubClientBase.py, src/GithubClientMCP.py,
src/GithubClientDirect.py and src/SectionAnalyzer.py, with theorems settling
the frozen claims about them.

Embedding conventions: Python `str` is `String`; a Python `dict` is an
insertion-ordered association list; a Python `set` is carried as the list of
its elements in iteration order and compared up to `List.toFinset` where only
the set value matters; a `str` parameter that may be `None` is
`Option String`; a fallible remote call is an `Except`- or `Option`-valued
oracle passed in as a parameter, with `.error` standing for a raised
exception.
-/

/-- Python `suffix in s` building block: all suffixes of a character list. -/
def suffixesOf : List Char → List (List Char)
  | [] => [[]]
  | c :: rest => (c :: rest) :: suffixesOf rest

/-- Python `pat in s` substring test: some suffix of `s` has `pat` as a prefix. -/
def containsSub (s pat : String) : Bool :=
  (suffixesOf s.toList).any (fun t => List.isPrefixOf pat.toList t)

/-- Python `s.endswith(suffix)`. -/
def pyEndsWith (s suffix : String) : Bool :=
  List.isSuffixOf suffix.toList s.toList

/-- Lookup in a Python dict modelled as an association list (`m.get(k)` / `m[k]`). -/
def pyGet (m : List (String × String)) (k : String) : Option String :=
  (m.find? (fun kv => kv.1 == k)).map (fun kv => kv.2)

/-- Python `k in m` for a dict modelled as an association list. -/
def hasKey (m : List (String × String)) (k : String) : Bool :=
  m.any (fun kv => kv.1 == k)

/-- Python dict assignment `m[k] = v`: update in place if the key exists
(keeping its position), otherwise append at the end. -/
def pyDictInsert (m : List (String × String)) (k v : String) : List (String × String) :=
  if m.any (fun kv => kv.1 == k) then
    m.map (fun kv => if kv.1 == k then (k, v) else kv)
  else
    m ++ [(k, v)]

/-- Python truthiness of an optional string: `None` and `""` are falsy. -/
def truthyS : Option String → Bool
  | none => false
  | some s => s ≠ ""

/-- Python `set(a) == set(b)` for lists of strings. -/
def sameKeySet (a b : List String) : Bool :=
  a.all (fun x => b.contains x) && b.all (fun x => a.contains x)

/-- The fixed binary-extension skip-list of
src/GithubClientBase.py, get_repository_structure (lines 135-138). -/
def binary_extensions : List String :=
  [".png", ".jpg", ".jpeg", ".gif", ".bmp", ".pdf", ".zip",
   ".gz", ".tar", ".class", ".exe", ".dll", ".so"]

/-- Translation of the nested helper should_include_file of
src/GithubClientBase.py, get_repository_structure (lines 141-154).
A `None` value for `extensions` or `include_patterns` behaves exactly like
`[]` in the source (both are falsy), so both are modelled by `[]`. -/
def should_include_file (extensions include_patterns : List String) (path : String) : Bool :=
  if !extensions.isEmpty && !extensions.any (fun e => pyEndsWith path e) then
    include_patterns.any (fun pt => containsSub path pt)
  else if binary_extensions.any (fun e => pyEndsWith path e) then
    false
  else
    true

/-- C5: for the traversal inclusion filter: when an extension allow-list is
configured and the path's suffix matches none of the allowed extensions, the
path is included iff some configured include-pattern occurs as a substring of
the path (pattern override beats extension rejection); when no extension
allow-list is configured, the path is excluded by this filter exactly when its
suffix matches the fixed binary-extension skip-list. -/
theorem C5_inclusion_filter (extensions include_patterns : List String) (path : String) :
    (extensions ≠ [] →
      extensions.any (fun e => pyEndsWith path e) = false →
      (should_include_file extensions include_patterns path = true ↔
        ∃ pt ∈ include_patterns, containsSub path pt = true))
  ∧ (extensions = [] →
      (should_include_file extensions include_patterns path = false ↔
        binary_extensions.any (fun e => pyEndsWith path e) = true)) := by
  constructor
  · intro hne hnm
    have hie : extensions.isEmpty = false := by
      cases extensions with
      | nil => exact absurd rfl hne
      | cons a l => rfl
    simp [should_include_file, hie, hnm, List.any_eq_true]
  · intro he
    subst he
    cases hb : binary_extensions.any (fun e => pyEndsWith path e) with
    | false => simp [should_include_file, hb]
    | true => simp [should_include_file, hb]

/-- Witness for C5 at the spec's own example: with extensions `[".py"]` and
include patterns `["README"]`, the file `README.md` matches no allowed
extension yet is included via the pattern override, while `notes.txt` is
excluded. -/
theorem C5_inclusion_filter_witness :
    (([".py"] : List String) ≠ [])
  ∧ ([".py"].any (fun e => pyEndsWith "README.md" e) = false)
  ∧ (should_include_file [".py"] ["README"] "README.md" = true ↔
      ∃ pt ∈ ["README"], containsSub "README.md" pt = true)
  ∧ (∃ pt ∈ ["README"], containsSub "README.md" pt = true)
  ∧ (should_include_file [".py"] ["README"] "notes.txt" = false) :=
  ⟨by decide, by decide,
   (C5_inclusion_filter [".py"] ["README"] "README.md").1 (by decide) (by decide),
   by decide, by decide⟩

/-- C10: the include-pattern override bypasses the binary-extension skip-list:
a path admitted by the override (allow-list configured, suffix matching no
allowed extension, some include-pattern matching) is included even when its
suffix is on the binary skip-list; whereas a path whose suffix matches an
allowed extension is still excluded when that suffix is also on the binary
skip-list. -/
theorem C10_override_bypasses_binary (extensions include_patterns : List String) (path : String)
    (hne : extensions ≠ []) :
    (extensions.any (fun e => pyEndsWith path e) = false →
      include_patterns.any (fun pt => containsSub path pt) = true →
      binary_extensions.any (fun e => pyEndsWith path e) = true →
      should_include_file extensions include_patterns path = true)
  ∧ (extensions.any (fun e => pyEndsWith path e) = true →
      binary_extensions.any (fun e => pyEndsWith path e) = true →
      should_include_file extensions include_patterns path = false) := by
  have hie : extensions.isEmpty = false := by
    cases extensions with
    | nil => exact absurd rfl hne
    | cons a l => rfl
  constructor
  · intro hnm hpat _hbin
    simp [should_include_file, hie, hnm, hpat]
  · intro hm hbin
    simp [should_include_file, hie, hm, hbin]

/-- Witness for C10: with extensions `[".py"]` and include patterns `["logo"]`
the binary-suffixed `logo.png` is included through the override; with
extensions `[".so"]` the path `libfoo.so` matches the allow-list but is still
excluded by the binary skip-list. -/
theorem C10_override_bypasses_binary_witness :
    (should_include_file [".py"] ["logo"] "logo.png" = true)
  ∧ (should_include_file [".so"] [] "libfoo.so" = false) :=
  ⟨(C10_override_bypasses_binary [".py"] ["logo"] "logo.png" (by decide)).1
      (by decide) (by decide) (by decide),
   (C10_override_bypasses_binary [".so"] [] "libfoo.so" (by decide)).2
      (by decide) (by decide)⟩

/-- One item of a GitHub repository-search response, as read by
src/GithubClientMCP.py, _get_default_branch (lines 147-175): only the
default_branch field is consulted; `none` models an absent key, `some ""`
an empty string (both falsy in the source). -/
structure RepoSearchItem where
  default_branch : Option String
deriving DecidableEq

/-- A GitHub repository-search response as read by
src/GithubClientMCP.py, _get_default_branch: total_count and items. -/
structure RepoSearchResult where
  total_count : Nat
  items : List RepoSearchItem
deriving DecidableEq

/-- Translation of GithubClientMCP._get_default_branch
(src/GithubClientMCP.py lines 147-175). The MCP call
`search_repositories(query=repo:owner/repo)` is the oracle argument;
`.error` models the call raising. Every failure path falls through to the
fixed fallback "main". -/
def mcp_get_default_branch (call : Except String RepoSearchResult) : String :=
  match call with
  | .error _ => "main"
  | .ok repo_info =>
    if 0 < repo_info.total_count then
      match repo_info.items with
      | [] => "main"
      | item :: _ =>
        match item.default_branch with
        | some b => if b ≠ "" then b else "main"
        | none => "main"
    else "main"

/-- Translation of GithubClientBase._get_default_branch
(src/GithubClientBase.py lines 239-254): the base implementation performs no
remote call and returns the fixed fallback "main". -/
def base_get_default_branch : String := "main"

/-- Translation of GithubClientDirect._get_default_branch
(src/GithubClientDirect.py lines 82-96). The oracle argument models
`self.github.get_repo(...)` followed by reading `.default_branch`; `.error`
models the PyGithub call raising. There is no try/except in this method, so
an error propagates to the caller unchanged. -/
def direct_get_default_branch (get_repo : Except String String) : Except String String :=
  match get_repo with
  | .error e => .error e
  | .ok default_branch => .ok default_branch

/-- C6 counterexample: the claim says every client implementation degrades to
the fallback "main" instead of raising, but GithubClientDirect._get_default_branch
has no exception handler: when the underlying get_repo call fails, the failure
propagates to the caller and "main" is not returned. -/
theorem C6_counterexample :
    direct_get_default_branch (.error "HTTP 404 repository not found") =
      .error "HTTP 404 repository not found"
  ∧ direct_get_default_branch (.error "HTTP 404 repository not found") ≠ .ok "main" := by
  constructor
  · rfl
  · intro h
    exact Except.noConfusion h

/-- C6 amended: the MCP-bridge client's default-branch resolution never raises
and returns the fixed fallback "main" whenever the remote lookup fails or
yields no usable branch (zero total_count, no items, or an absent or empty
default_branch field); the base-class implementation always returns "main";
the direct-API client, however, propagates any failure of the underlying
remote call to its caller. -/
theorem C6_default_branch_amended (err : String) (repo_info : RepoSearchResult) :
    (mcp_get_default_branch (.error err) = "main")
  ∧ (repo_info.total_count = 0 → mcp_get_default_branch (.ok repo_info) = "main")
  ∧ (repo_info.items = [] → mcp_get_default_branch (.ok repo_info) = "main")
  ∧ (base_get_default_branch = "main")
  ∧ (direct_get_default_branch (.error err) = .error err) := by
  refine ⟨rfl, ?_, ?_, rfl, rfl⟩
  · intro h
    simp [mcp_get_default_branch, h]
  · intro h
    simp [mcp_get_default_branch, h]

/-- Witness for C6 amended, at a concrete failing call and a concrete empty
search result. -/
theorem C6_default_branch_amended_witness :
    (mcp_get_default_branch (.error "timeout") = "main")
  ∧ ((⟨0, []⟩ : RepoSearchResult).total_count = 0 →
      mcp_get_default_branch (.ok ⟨0, []⟩) = "main")
  ∧ ((⟨0, []⟩ : RepoSearchResult).items = [] →
      mcp_get_default_branch (.ok ⟨0, []⟩) = "main")
  ∧ (base_get_default_branch = "main")
  ∧ (direct_get_default_branch (.error "timeout") = .error "timeout") :=
  C6_default_branch_amended "timeout" ⟨0, []⟩

/-- The batch slicing of src/GithubClientBase.py, get_repository_structure
(lines 211-212): `for i in range(0, len(paths), batch_size): batch = paths[i:i+batch_size]`.
For batch_size = 0 the source raises ValueError from range; that case is
modelled as producing no batches and is excluded by hypothesis in the
theorems. -/
def chunks (batch_size : Nat) : List String → List (List String)
  | [] => []
  | a :: rest =>
    if _h : batch_size = 0 then []
    else (a :: rest).take batch_size :: chunks batch_size ((a :: rest).drop batch_size)
termination_by l => l.length
decreasing_by
  simp only [List.length_drop, List.length_cons]
  omega

/-- One file fetch inside the batch loop of src/GithubClientBase.py,
get_repository_structure (lines 224-231): on success the path is written to
the result dict, on any exception (fetch or decode) the path is skipped. -/
def fetchStep (fetch : String → Except String String) (acc : List (String × String))
    (p : String) : List (String × String) :=
  match fetch p with
  | .ok content => pyDictInsert acc p content
  | .error _ => acc

/-- The fetch phase of src/GithubClientBase.py, get_repository_structure
(lines 207-231): the collected paths are processed in sequential batches; the
per-file fetches inside one batch run concurrently but write disjoint keys,
so their membership effect is modelled by folding `fetchStep` over the batch.
The whole phase is a total function into a file map: no exception escapes. -/
def fetchPhase (fetch : String → Except String String) (all_file_paths : List String)
    (batch_size : Nat) : List (String × String) :=
  (chunks batch_size all_file_paths).foldl
    (fun result batch => batch.foldl (fetchStep fetch) result) []


theorem find?_upd_self (k v : String) (m : List (String × String))
    (h : m.any (fun kv => kv.1 == k) = true) :
    List.find? (fun kv => kv.1 == k)
      (m.map (fun kv => if kv.1 == k then (k, v) else kv)) = some (k, v) := by
  induction m with
  | nil => simp at h
  | cons kv rest ih =>
    by_cases hk : (kv.1 == k) = true
    · rw [List.map_cons, if_pos hk]
      simp [List.find?]
    · have hkf : (kv.1 == k) = false := by simpa using hk
      rw [List.map_cons, if_neg hk]
      simp only [List.find?, hkf]
      rw [List.any_cons] at h
      rcases Bool.or_eq_true_iff.mp h with h1 | h2
      · exact absurd h1 hk
      · exact ih h2

theorem find?_upd_ne (k v k2 : String) (hne : (k == k2) = false)
    (m : List (String × String)) :
    List.find? (fun kv => kv.1 == k2)
      (m.map (fun kv => if kv.1 == k then (k, v) else kv)) =
    List.find? (fun kv => kv.1 == k2) m := by
  induction m with
  | nil => rfl
  | cons kv rest ih =>
    by_cases hk : (kv.1 == k) = true
    · have hkk : kv.1 = k := by simpa using hk
      have hne2 : (kv.1 == k2) = false := by rw [hkk]; exact hne
      rw [List.map_cons, if_pos hk]
      simp only [List.find?, hne, hne2]
      exact ih
    · rw [List.map_cons, if_neg hk]
      by_cases h2 : (kv.1 == k2) = true
      · simp only [List.find?, h2]
      · have h2f : (kv.1 == k2) = false := by simpa using h2
        simp only [List.find?, h2f]
        exact ih

theorem pyGet_pyDictInsert_self (m : List (String × String)) (k v : String) :
    pyGet (pyDictInsert m k v) k = some v := by
  unfold pyGet pyDictInsert
  by_cases hany : m.any (fun kv => kv.1 == k) = true
  · rw [if_pos hany, find?_upd_self k v m hany]
    rfl
  · rw [if_neg hany]
    have hnone : m.find? (fun kv => kv.1 == k) = none := by
      rw [List.find?_eq_none]
      intro x hx hpx
      exact hany (List.any_eq_true.mpr ⟨x, hx, hpx⟩)
    rw [List.find?_append, hnone]
    simp [List.find?]

theorem pyGet_pyDictInsert_ne (m : List (String × String)) (k v k2 : String)
    (h : k2 ≠ k) : pyGet (pyDictInsert m k v) k2 = pyGet m k2 := by
  have hne : (k == k2) = false := by
    rw [beq_eq_false_iff_ne]
    exact fun hc => h hc.symm
  unfold pyGet pyDictInsert
  by_cases hany : m.any (fun kv => kv.1 == k) = true
  · rw [if_pos hany, find?_upd_ne k v k2 hne m]
  · rw [if_neg hany, List.find?_append]
    have hlast : List.find? (fun kv => kv.1 == k2) [(k, v)] = none := by
      simp [List.find?, hne]
    rw [hlast]
    cases List.find? (fun kv => kv.1 == k2) m <;> rfl

theorem fetchFold_pyGet (fetch : String → Except String String) (p : String) :
    ∀ (l : List String) (acc : List (String × String)),
      pyGet (l.foldl (fetchStep fetch) acc) p =
        (if p ∈ l then
          match fetch p with
          | .ok c0 => some c0
          | .error _ => pyGet acc p
        else pyGet acc p) := by
  intro l
  induction l with
  | nil => intro acc; simp
  | cons q rest ih =>
    intro acc
    rw [List.foldl_cons, ih]
    cases hf : fetch p with
    | ok c0 =>
      by_cases hmem : p ∈ rest
      · rw [if_pos hmem, if_pos (List.mem_cons.mpr (Or.inr hmem))]
      · rw [if_neg hmem]
        by_cases hpq : p = q
        · rw [if_pos (List.mem_cons.mpr (Or.inl hpq))]
          subst hpq
          unfold fetchStep
          rw [hf, pyGet_pyDictInsert_self]
        · rw [if_neg (fun hc => (List.mem_cons.mp hc).elim hpq hmem)]
          unfold fetchStep
          cases hq : fetch q with
          | ok c => rw [pyGet_pyDictInsert_ne _ _ _ _ hpq]
          | error e => rfl
    | error e =>
      simp only [ite_self]
      unfold fetchStep
      by_cases hpq : p = q
      · subst hpq
        rw [hf]
      · cases hq : fetch q with
        | ok c => rw [pyGet_pyDictInsert_ne _ _ _ _ hpq]
        | error e2 => rfl

theorem chunks_flatten (batch_size : Nat) (hbs : 0 < batch_size) :
    ∀ (n : Nat) (l : List String), l.length ≤ n →
      (chunks batch_size l).flatten = l := by
  intro n
  induction n with
  | zero =>
    intro l hl
    have : l = [] := List.eq_nil_of_length_eq_zero (Nat.le_zero.mp hl)
    subst this
    simp [chunks]
  | succ n ih =>
    intro l hl
    cases l with
    | nil => simp [chunks]
    | cons a rest =>
      rw [chunks]
      rw [dif_neg (Nat.pos_iff_ne_zero.mp hbs)]
      rw [List.flatten_cons]
      have hlen : ((a :: rest).drop batch_size).length ≤ n := by
        rw [List.length_drop]
        simp only [List.length_cons] at hl ⊢
        omega
      rw [ih _ hlen, List.take_append_drop]

theorem fetchPhase_eq_foldl (fetch : String → Except String String)
    (all_file_paths : List String) (batch_size : Nat) (hbs : 0 < batch_size) :
    fetchPhase fetch all_file_paths batch_size =
      all_file_paths.foldl (fetchStep fetch) [] := by
  unfold fetchPhase
  have hflat := chunks_flatten batch_size hbs all_file_paths.length all_file_paths le_rfl
  conv_rhs => rw [← hflat]
  rw [List.foldl_flatten]

/-- C4: in the fetch phase of get_repository_structure, for every batch
slicing with a positive batch size, a path is present in the returned file
map with content c exactly when it was collected and its fetch succeeded
with c: a path whose fetch or decode raises is simply absent, every
succeeding path of its batch is present with its content, and the phase is a
total function - no exception escapes it. -/
theorem C4_batch_resilience (fetch : String → Except String String)
    (all_file_paths : List String) (batch_size : Nat) (hbs : 0 < batch_size)
    (p c : String) :
    pyGet (fetchPhase fetch all_file_paths batch_size) p = some c ↔
      p ∈ all_file_paths ∧ fetch p = .ok c := by
  rw [fetchPhase_eq_foldl fetch all_file_paths batch_size hbs]
  rw [fetchFold_pyGet]
  by_cases hmem : p ∈ all_file_paths
  · simp only [hmem, if_true, true_and]
    cases hf : fetch p with
    | ok c0 =>
      constructor
      · intro h
        cases h
        rfl
      · intro h
        cases h
        rfl
    | error e =>
      simp [pyGet]
  · simp [hmem, pyGet]

/-- A concrete fetcher for the C4 witness: the spec's batch-resilience
example, 1 failing path out of 5. -/
def witnessFetch (p : String) : Except String String :=
  if p == "bad.py" then .error "boom" else .ok ("content of " ++ p)

/-- The five collected paths of the C4 witness batch. -/
def witnessPaths : List String := ["a.py", "b.py", "bad.py", "c.py", "d.py"]

/-- Witness for C4 at the spec's example: with one batch of five paths of
which exactly one fails, the failed path is absent and a succeeding one is
present with its content. -/
theorem C4_batch_resilience_witness :
    (0 < 5)
  ∧ (pyGet (fetchPhase witnessFetch witnessPaths 5) "a.py" = some "content of a.py" ↔
      "a.py" ∈ witnessPaths ∧ witnessFetch "a.py" = .ok "content of a.py")
  ∧ (pyGet (fetchPhase witnessFetch witnessPaths 5) "bad.py" = none) :=
  ⟨by decide,
   C4_batch_resilience witnessFetch witnessPaths 5 (by decide) "a.py" "content of a.py",
   by
    rw [fetchPhase_eq_foldl witnessFetch witnessPaths 5 (by decide)]
    decide⟩

/-- Python os.path.basename for POSIX paths: the characters after the last
slash. -/
def pyBasename (p : String) : String :=
  String.mk ((p.toList.reverse.takeWhile (fun c => c != '/')).reverse)

/-- Python os.path.dirname for POSIX paths: everything up to the last slash,
with trailing slashes stripped unless the head is all slashes. -/
def pyDirname (p : String) : String :=
  let head := (p.toList.reverse.dropWhile (fun c => c != '/')).reverse
  if head.all (fun c => c == '/') then String.mk head
  else String.mk ((head.reverse.dropWhile (fun c => c == '/')).reverse)

/-- The extension part of Python os.path.splitext applied to a slash-free
filename: the suffix from the last dot on, unless every character before
that dot is itself a dot (leading-dot names like ".bashrc" have no
extension). -/
def pySplitextExt (filename : String) : String :=
  let cs := filename.toList
  let extRev := cs.reverse.takeWhile (fun c => c != '.')
  if extRev.length = cs.length then ""
  else
    let nameLen := cs.length - extRev.length - 1
    if (cs.take nameLen).all (fun c => c == '.') then ""
    else String.mk ('.' :: extRev.reverse)

/-- The name part of Python os.path.splitext applied to a slash-free
filename: the filename with its extension removed. -/
def pySplitextName (filename : String) : String :=
  String.mk (filename.toList.take
    (filename.toList.length - (pySplitextExt filename).toList.length))

/-- Python f-string quoting used by search_references: the query string with
literal double quotes around it. -/
def quoteStr (s : String) : String := "\"" ++ s ++ "\""

/-- The backlink queries built by GithubClientMCP.search_references
(src/GithubClientMCP.py lines 238-260): the quoted exact filename always;
for a .py file additionally quoted "import <module>" and "from <module>",
where <module> is the filename without extension, replaced by the parent
directory's name for __init__.py files when that name is non-empty. -/
def buildQueries (filepath : String) : List String :=
  let filename := pyBasename filepath
  let name := pySplitextName filename
  let ext := pySplitextExt filename
  let base := [quoteStr filename]
  if ext = ".py" then
    let module_name :=
      if name = "__init__" then
        let dir_name := pyBasename (pyDirname filepath)
        if dir_name ≠ "" then dir_name else name
      else name
    base ++ [quoteStr ("import " ++ module_name), quoteStr ("from " ++ module_name)]
  else base

/-- The repo-scoping step of GithubClientMCP.search_code
(src/GithubClientMCP.py lines 191-193): prepend "repo:owner/repo " unless
already contained in the query. -/
def sc_query (owner repo query : String) : String :=
  if containsSub query ("repo:" ++ owner ++ "/" ++ repo) then query
  else "repo:" ++ owner ++ "/" ++ repo ++ " " ++ query

/-- One page of a GitHub code-search response as read by
GithubClientMCP.search_code: the paths of its items and the total_count
field. -/
structure SearchPage where
  items : List String
  total_count : Nat
deriving DecidableEq

/-- The paging loop of GithubClientMCP.search_code
(src/GithubClientMCP.py lines 195-219). The oracle `pages` maps a page
number and per_page to a response, `none` modelling the MCP call raising.
`none` overall models the exception reaching the except-handler. The fuel
argument equals max_results in search_code; since every executed iteration
requires the accumulated length to be below max_results and appends at least
one item, the loop body can run at most max_results times, so this fuel
reproduces the source loop exactly. -/
def search_code_loop (pages : Nat → Nat → Option SearchPage) (max_results per_page : Nat) :
    Nat → Nat → List String → Option (List String)
  | 0, _page, results => some results
  | Nat.succ fuel, page, results =>
    if results.length < max_results then
      match pages page per_page with
      | none => none
      | some response =>
        if response.items.isEmpty then some results
        else
          let results2 := results ++ response.items
          if response.total_count ≤ results2.length ∨ max_results ≤ results2.length then
            some results2
          else
            search_code_loop pages max_results per_page fuel (page + 1) results2
    else some results

/-- Translation of GithubClientMCP.search_code
(src/GithubClientMCP.py lines 177-224): pages are accumulated starting at
page 1 with per_page = min(100, max_results), the result is cut to
max_results, and any exception yields the empty list. -/
def search_code (pages : Nat → Nat → Option SearchPage) (max_results : Nat) : List String :=
  let per_page := min 100 max_results
  match search_code_loop pages max_results per_page max_results 1 [] with
  | none => []
  | some results => results.take max_results

/-- The reference-union loop of GithubClientMCP.search_references
(src/GithubClientMCP.py lines 262-274): per-query result paths are added in
order, skipping the queried file itself. The source accumulates into a
Python set; this list carries the same members (possibly with duplicates),
and the theorems compare it by membership only. -/
def gatherRefs (per_query_results : List (List String)) (filepath : String) : List String :=
  per_query_results.foldl
    (fun references items => references ++ items.filter (fun x => x != filepath)) []

/-- Translation of GithubClientMCP.search_references
(src/GithubClientMCP.py lines 226-278): build the backlink queries for the
file, run search_code (max_results 100) on each scoped query, union the
returned paths and exclude the file itself. -/
def search_references (pages : String → Nat → Nat → Option SearchPage)
    (owner repo filepath : String) : List String :=
  gatherRefs
    ((buildQueries filepath).map
      (fun query => search_code (pages (sc_query owner repo query)) 100))
    filepath

theorem gatherRefs_foldl_mem (filepath p : String) :
    ∀ (rs : List (List String)) (acc : List String),
      (p ∈ rs.foldl (fun references items =>
          references ++ items.filter (fun x => x != filepath)) acc) ↔
        (p ∈ acc ∨ (p ≠ filepath ∧ ∃ items ∈ rs, p ∈ items)) := by
  intro rs
  induction rs with
  | nil => intro acc; simp
  | cons items rest ih =>
    intro acc
    rw [List.foldl_cons, ih]
    simp only [List.mem_append, List.mem_filter, bne_iff_ne, List.mem_cons]
    constructor
    · rintro ((h | ⟨hi, hne⟩) | ⟨hne, its, hits, hmem⟩)
      · exact Or.inl h
      · exact Or.inr ⟨hne, items, Or.inl rfl, hi⟩
      · exact Or.inr ⟨hne, its, Or.inr hits, hmem⟩
    · rintro (h | ⟨hne, its, (rfl | hits), hmem⟩)
      · exact Or.inl (Or.inl h)
      · exact Or.inl (Or.inr ⟨hmem, hne⟩)
      · exact Or.inr ⟨hne, its, hits, hmem⟩

theorem gatherRefs_foldl_length (filepath : String) :
    ∀ (rs : List (List String)) (acc : List String),
      (rs.foldl (fun references items =>
          references ++ items.filter (fun x => x != filepath)) acc).length ≤
        acc.length + (rs.map List.length).sum := by
  intro rs
  induction rs with
  | nil => intro acc; simp
  | cons items rest ih =>
    intro acc
    rw [List.foldl_cons]
    calc (rest.foldl _ (acc ++ items.filter (fun x => x != filepath))).length
        ≤ (acc ++ items.filter (fun x => x != filepath)).length +
            (rest.map List.length).sum := ih _
      _ ≤ acc.length + items.length + (rest.map List.length).sum := by
          rw [List.length_append]
          exact Nat.add_le_add_right
            (Nat.add_le_add_left (List.length_filter_le _ _) _) _
      _ = acc.length + ((items :: rest).map List.length).sum := by
          simp [Nat.add_assoc]

theorem search_code_length_le (pages : Nat → Nat → Option SearchPage) (max_results : Nat) :
    (search_code pages max_results).length ≤ max_results := by
  dsimp only [search_code]
  cases h : search_code_loop pages max_results (min 100 max_results) max_results 1 [] with
  | none => simp
  | some results =>
    simp only [List.length_take]
    exact min_le_left _ _

theorem buildQueries_length_le (filepath : String) :
    (buildQueries filepath).length ≤ 3 := by
  unfold buildQueries
  by_cases h : pySplitextExt (pyBasename filepath) = ".py"
  · simp [h]
  · simp [h]

/-- C8: search_references returns exactly the union, over the backlink
queries built for the file (quoted exact filename; for a .py file also
quoted "import <module>" and "from <module>" with <module> resolved to the
parent directory name for __init__.py), of the paths found by search_code,
with the queried file itself excluded; each query's results are capped at
100 items, hence the whole result at 3 * 100 items. -/
theorem C8_search_references_union (pages : String → Nat → Nat → Option SearchPage)
    (owner repo filepath p : String) :
    (p ∈ search_references pages owner repo filepath ↔
      p ≠ filepath ∧ ∃ query ∈ buildQueries filepath,
        p ∈ search_code (pages (sc_query owner repo query)) 100)
  ∧ (∀ query : String, (search_code (pages query) 100).length ≤ 100)
  ∧ (search_references pages owner repo filepath).length ≤ 300 := by
  refine ⟨?_, fun query => search_code_length_le _ 100, ?_⟩
  · unfold search_references gatherRefs
    rw [gatherRefs_foldl_mem]
    simp only [List.not_mem_nil, false_or, List.mem_map]
    constructor
    · rintro ⟨hne, its, ⟨q, hq, rfl⟩, hmem⟩
      exact ⟨hne, q, hq, hmem⟩
    · rintro ⟨hne, q, hq, hmem⟩
      exact ⟨hne, _, ⟨q, hq, rfl⟩, hmem⟩
  · unfold search_references gatherRefs
    calc (((buildQueries filepath).map
            (fun query => search_code (pages (sc_query owner repo query)) 100)).foldl
            (fun references items =>
              references ++ items.filter (fun x => x != filepath)) []).length
        ≤ ([] : List String).length +
            (((buildQueries filepath).map
              (fun query => search_code (pages (sc_query owner repo query)) 100)).map
                List.length).sum := gatherRefs_foldl_length filepath _ []
      _ ≤ 100 * (buildQueries filepath).length := by
          simp only [List.length_nil, Nat.zero_add, List.map_map]
          induction buildQueries filepath with
          | nil => simp
          | cons q rest ih =>
            simp only [List.map_cons, List.sum_cons, List.length_cons]
            calc (search_code (pages (sc_query owner repo q)) 100).length +
                  (rest.map (List.length ∘ fun query =>
                    search_code (pages (sc_query owner repo query)) 100)).sum
                ≤ 100 + 100 * rest.length :=
                  Nat.add_le_add (search_code_length_le _ 100) ih
              _ = 100 * (rest.length + 1) := by ring
      _ ≤ 300 := by
          have := buildQueries_length_le filepath
          omega

/-- File maps: Python Dict[str, str] from file path to content, in insertion
order. -/
abbrev FileMap := List (String × String)

/-- Section lists: Python List[Tuple[str, Dict[str, str]]] as returned by
SectionAnalyzer.analyze_repository. -/
abbrev SectionList := List (String × FileMap)

/-- The AnalysisMethod enum of src/SectionAnalyzer.py (lines 12-16). -/
inductive AnalysisMethod where
  | STRUCTURAL
  | DEPENDENCY
  | HYBRID
deriving DecidableEq

/-- Python method.name for the AnalysisMethod enum members. -/
def AnalysisMethod.name : AnalysisMethod → String
  | .STRUCTURAL => "STRUCTURAL"
  | .DEPENDENCY => "DEPENDENCY"
  | .HYBRID => "HYBRID"

/-- A stored repository-structure cache record as read by
SectionAnalyzer.analyze_repository (lines 70-87): the "files" list (the
file-set fingerprint) and the "sections" mapping (section name to path
list). Absent keys are modelled by their source defaults [] / empty dict;
a record that is falsy as a whole is modelled as an absent record. -/
structure StructureData where
  files : List String
  sections : List (String × List String)
deriving DecidableEq

/-- The metadata keys written by SectionAnalyzer.analyze_repository
(lines 163-167): section count, method name and per-section sizes. Prior
unrelated metadata keys are carried through unchanged by the source and are
not modelled. -/
structure AnalyzerMetadata where
  section_count : Nat
  section_method : String
  sections : List (String × Nat)
deriving DecidableEq

/-- The cache writes performed by SectionAnalyzer.analyze_repository:
update_structure_cache(owner, repo, repo_files, branch) on line 160 - note
its payload is the raw file map, not the locally built structure_data - and
save_repo_metadata(owner, repo, metadata, branch) on line 167. -/
inductive CacheOp where
  | update_structure_cache (owner repo : String) (repo_files : FileMap)
      (branch : Option String)
  | save_repo_metadata (owner repo : String) (metadata : AnalyzerMetadata)
      (branch : Option String)
deriving DecidableEq

/-- The state and collaborators of a SectionAnalyzer during one
analyze_repository call: the use_cache flag, the has_code_search boolean the
constructor cached (src/SectionAnalyzer.py lines 40-43), the structure
record the cache currently holds for the given (owner, repo, branch), and
the analysis strategies. The strategy bodies (enhanced_dependency_analysis,
dependency_analysis, structural_analysis, hybrid_analysis,
_extract_enhanced_dependencies, _group_by_dependencies) are referenced but
not contained in src/. Modelled from the spec: each strategy is a
deterministic function of its arguments (spec 4.3, determinism
requirement), and _group_by_dependencies consumes only the set value of
each dependency set ("no iteration over unordered structures may influence
naming or tie-breaks"), so it receives Finset-valued dependencies;
_extract_enhanced_dependencies returns each set as a list in iteration
order. -/
structure AnalyzerCtx where
  use_cache : Bool
  has_code_search : Bool
  cached_structure : Option StructureData
  enhanced_dependency_analysis :
    FileMap → String → String → Nat → Option String → SectionList
  dependency_analysis : FileMap → Nat → SectionList
  structural_analysis : FileMap → Nat → SectionList
  hybrid_analysis : FileMap → Nat → SectionList
  extract_enhanced_dependencies : FileMap → String → String → List (String × List String)
  group_by_dependencies : FileMap → List (String × Finset String) → Nat → SectionList

/-- The dict comprehension of src/SectionAnalyzer.py line 81:
{path: repo_files[path] for path in file_paths if path in repo_files}. -/
def pyDictOf (repo_files : FileMap) (paths : List String) : FileMap :=
  paths.foldl
    (fun acc p =>
      match pyGet repo_files p with
      | some c => pyDictInsert acc p c
      | none => acc) []

/-- The cached-section reconstruction of src/SectionAnalyzer.py lines 79-83:
each stored section is re-joined with content from the current file map and
sections that come out empty are skipped. -/
def replaySections (repo_files : FileMap) (cached : StructureData) : SectionList :=
  (cached.sections.map (fun nmps => (nmps.1, pyDictOf repo_files nmps.2))).filter
    (fun s => !s.2.isEmpty)

/-- The cache short-circuit of SectionAnalyzer.analyze_repository
(lines 67-87): attempted only when use_cache is set, owner and repo are
truthy, and the method is DEPENDENCY or HYBRID (line 68); it fires when a
stored structure record exists whose file list has the same key set as the
current file map and whose stored sections reconstruct to a non-empty
section list. -/
def tryCacheReplay (ctx : AnalyzerCtx) (repo_files : FileMap) (method : AnalysisMethod)
    (owner repo : Option String) : Option SectionList :=
  if ctx.use_cache && truthyS owner && truthyS repo &&
      (method == AnalysisMethod.DEPENDENCY || method == AnalysisMethod.HYBRID) then
    match ctx.cached_structure with
    | none => none
    | some cached =>
      if sameKeySet (repo_files.map (fun kv => kv.1)) cached.files then
        if !cached.sections.isEmpty then
          let sections := replaySections repo_files cached
          if !sections.isEmpty then some sections else none
        else none
      else none
  else none

/-- The induced dependency restriction of src/SectionAnalyzer.py
lines 114-117: section_deps = {src: {tgt for tgt in deps if tgt in files}
for src, deps in dependencies.items() if src in files}; the inner set
comprehension yields a set, canonicalised here by toFinset since only its
set value is passed on. -/
def sectionDeps (files : FileMap) (dependencies : List (String × List String)) :
    List (String × Finset String) :=
  (dependencies.filter (fun sd => hasKey files sd.1)).map
    (fun sd => (sd.1, (sd.2.filter (fun tgt => hasKey files tgt)).toFinset))

/-- The strategy dispatch of SectionAnalyzer.analyze_repository
(lines 89-136), including the inline enhanced-hybrid refinement of
lines 100-129: every structural section larger than max_section_size is
replaced by its dependency-based subsections renamed
"<parent>/<subsection>". -/
def dispatchSections (ctx : AnalyzerCtx) (repo_files : FileMap) (method : AnalysisMethod)
    (max_section_size : Nat) (owner repo branch : Option String) : SectionList :=
  match method with
  | .DEPENDENCY =>
    if ctx.has_code_search && truthyS owner && truthyS repo then
      ctx.enhanced_dependency_analysis repo_files (owner.getD "") (repo.getD "")
        max_section_size branch
    else
      ctx.dependency_analysis repo_files max_section_size
  | .HYBRID =>
    if ctx.has_code_search && truthyS owner && truthyS repo then
      let structural_sections := ctx.structural_analysis repo_files max_section_size
      let dependencies :=
        ctx.extract_enhanced_dependencies repo_files (owner.getD "") (repo.getD "")
      structural_sections.foldl
        (fun sections sec =>
          if max_section_size < sec.2.length then
            sections ++
              (ctx.group_by_dependencies sec.2 (sectionDeps sec.2 dependencies)
                  max_section_size).map
                (fun sub => (sec.1 ++ "/" ++ sub.1, sub.2))
          else sections ++ [sec]) []
    else
      ctx.hybrid_analysis repo_files max_section_size
  | .STRUCTURAL => ctx.structural_analysis repo_files max_section_size

/-- Modelled from the spec: _merge_small_sections is called at line 140 of
src/SectionAnalyzer.py but its body is not part of src/. Per spec 4.3
(normalization pass) a section below the minimum size is folded into an
adjacent section - the following one in the deterministic ordering. This
helper walks the list folding each too-small section into its successor. -/
def merge_small_go (min_section_size : Nat) :
    (String × FileMap) → SectionList → SectionList
  | sec, [] => [sec]
  | sec, nxt :: rest =>
    if sec.2.length < min_section_size then
      merge_small_go min_section_size (nxt.1, sec.2 ++ nxt.2) rest
    else
      sec :: merge_small_go min_section_size nxt rest

/-- Modelled from the spec: the forward pass of the min-size merge. -/
def merge_small_forward (min_section_size : Nat) : SectionList → SectionList
  | [] => []
  | sec :: rest => merge_small_go min_section_size sec rest

/-- Modelled from the spec: _merge_small_sections. After the forward pass
only the final section can still be below the minimum; it is then folded
into the section before it (its adjacent section), unless it is the only
one - the pass never runs when a single section exists. -/
def merge_small_sections (min_section_size : Nat) (sections : SectionList) : SectionList :=
  match (merge_small_forward min_section_size sections).reverse with
  | [] => []
  | [sec] => [sec]
  | last :: prev :: rest =>
    if last.2.length < min_section_size then
      ((prev.1, prev.2 ++ last.2) :: rest).reverse
    else
      (last :: prev :: rest).reverse

/-- The observable outcome of one analyze_repository call: the returned
section list, the cache writes performed, and whether any partition
strategy ran (the invocation counter of spec section 8; false exactly on
the cache-replay return of line 87). -/
structure AnalyzeResult where
  sections : SectionList
  ops : List CacheOp
  strategyInvoked : Bool
deriving DecidableEq

/-- Translation of SectionAnalyzer.analyze_repository
(src/SectionAnalyzer.py lines 45-169): cache-replay short-circuit, strategy
dispatch, min-size merge pass (applied exactly when min_section_size > 1),
and the persistence block (run exactly when use_cache and truthy owner and
repo). Lines 150-158 of the source build a structure_data dict (sections,
files, section_method, owner, repo, branch) that is never passed to any
cache call - a dead store - so the only structure-cache write is
update_structure_cache(owner, repo, repo_files, branch) with the raw file
map as payload. -/
def analyze_repository (ctx : AnalyzerCtx) (repo_files : FileMap)
    (method : AnalysisMethod) (max_section_size min_section_size : Nat)
    (owner repo branch : Option String) : AnalyzeResult :=
  match tryCacheReplay ctx repo_files method owner repo with
  | some sections => ⟨sections, [], false⟩
  | none =>
    let sections0 :=
      dispatchSections ctx repo_files method max_section_size owner repo branch
    let sections :=
      if 1 < min_section_size then merge_small_sections min_section_size sections0
      else sections0
    let ops :=
      if ctx.use_cache && truthyS owner && truthyS repo then
        [CacheOp.update_structure_cache (owner.getD "") (repo.getD "") repo_files branch,
         CacheOp.save_repo_metadata (owner.getD "") (repo.getD "")
           ⟨sections.length, method.name, sections.map (fun s => (s.1, s.2.length))⟩
           branch]
      else []
    ⟨sections, ops, true⟩

theorem merge_small_go_ne_nil (m : Nat) :
    ∀ (rest : SectionList) (sec : String × FileMap), merge_small_go m sec rest ≠ [] := by
  intro rest
  induction rest with
  | nil =>
    intro sec
    simp [merge_small_go]
  | cons nxt r ih =>
    intro sec
    rw [merge_small_go]
    by_cases h : sec.2.length < m
    · rw [if_pos h]
      exact ih _
    · rw [if_neg h]
      simp

theorem merge_small_go_dropLast (m : Nat) :
    ∀ (rest : SectionList) (sec : String × FileMap),
      ∀ x ∈ (merge_small_go m sec rest).dropLast, m ≤ x.2.length := by
  intro rest
  induction rest with
  | nil =>
    intro sec x hx
    simp [merge_small_go] at hx
  | cons nxt r ih =>
    intro sec x hx
    rw [merge_small_go] at hx
    by_cases h : sec.2.length < m
    · rw [if_pos h] at hx
      exact ih _ x hx
    · rw [if_neg h] at hx
      rw [List.dropLast_cons_of_ne_nil (merge_small_go_ne_nil m r nxt)] at hx
      rcases List.mem_cons.mp hx with hx1 | hx2
      · subst hx1
        omega
      · exact ih _ x hx2

theorem merge_small_forward_dropLast (m : Nat) (sections : SectionList) :
    ∀ x ∈ (merge_small_forward m sections).dropLast, m ≤ x.2.length := by
  cases sections with
  | nil =>
    intro x hx
    simp [merge_small_forward] at hx
  | cons sec rest =>
    intro x hx
    exact merge_small_go_dropLast m rest sec x
      (by simpa [merge_small_forward] using hx)

theorem merge_small_sections_floor (m : Nat) (sections : SectionList) :
    (∀ s ∈ merge_small_sections m sections, m ≤ s.2.length) ∨
      (merge_small_sections m sections).length = 1 := by
  unfold merge_small_sections
  cases hrev : (merge_small_forward m sections).reverse with
  | nil =>
    left
    intro s hs
    simp at hs
  | cons last tail =>
    cases tail with
    | nil =>
      right
      simp
    | cons prev rest =>
      dsimp only
      have hF : merge_small_forward m sections = (prev :: rest).reverse ++ [last] := by
        have h2 := congrArg List.reverse hrev
        rw [List.reverse_reverse] at h2
        rw [h2, List.reverse_cons]
      have hdrop : ∀ x ∈ (prev :: rest).reverse, m ≤ x.2.length := by
        intro x hx
        apply merge_small_forward_dropLast m sections x
        rw [hF, List.dropLast_concat]
        exact hx
      by_cases hlast : last.2.length < m
      · rw [if_pos hlast]
        left
        intro s hs
        rw [List.mem_reverse] at hs
        rcases List.mem_cons.mp hs with hs1 | hs2
        · have hp : m ≤ prev.2.length :=
            hdrop prev (List.mem_reverse.mpr (List.mem_cons_self _ _))
          subst hs1
          simp only [List.length_append]
          omega
        · exact hdrop s (List.mem_reverse.mpr (List.mem_cons_of_mem _ hs2))
      · rw [if_neg hlast]
        left
        intro s hs
        rw [List.mem_reverse] at hs
        rcases List.mem_cons.mp hs with hs1 | hs2
        · subst hs1
          omega
        · exact hdrop s (List.mem_reverse.mpr hs2)

/-- C2: after the min-size merge pass - which the source applies exactly
when min_section_size > 1 and the cache replay did not fire - every section
of the returned SectionSet has at least min_section_size files unless
exactly one section remains, whatever analysis method was chosen and
whatever sections the strategy produced. -/
theorem C2_size_floor (ctx : AnalyzerCtx) (repo_files : FileMap)
    (method : AnalysisMethod) (max_section_size min_section_size : Nat)
    (owner repo branch : Option String)
    (hmin : 1 < min_section_size)
    (hreplay : tryCacheReplay ctx repo_files method owner repo = none) :
    (∀ s ∈ (analyze_repository ctx repo_files method max_section_size min_section_size
        owner repo branch).sections, min_section_size ≤ s.2.length) ∨
      (analyze_repository ctx repo_files method max_section_size min_section_size
        owner repo branch).sections.length = 1 := by
  unfold analyze_repository
  rw [hreplay]
  dsimp only
  rw [if_pos hmin]
  exact merge_small_sections_floor min_section_size _

/-- A concrete analyzer context for the closed witnesses: caching disabled,
code search available, no stored structure record, constant strategies. -/
def witnessCtx : AnalyzerCtx :=
  ⟨false, true, none,
   fun fm _ _ _ _ => [("core", fm)],
   fun fm _ => [("deps", fm)],
   fun fm _ => [("root", fm)],
   fun fm _ => [("hybrid", fm)],
   fun _ _ _ => [],
   fun fm _ _ => [("grp", fm)]⟩

/-- A concrete three-file map for the closed witnesses. -/
def witnessFiles : FileMap :=
  [("a.py", "contents A"), ("b.py", "contents B"), ("c.py", "contents C")]

/-- Witness for C2 at a concrete DEPENDENCY run with min_section_size 2 and
no cache replay. -/
theorem C2_size_floor_witness :
    (1 < 2)
  ∧ (tryCacheReplay witnessCtx witnessFiles AnalysisMethod.DEPENDENCY
      (some "o") (some "r") = none)
  ∧ ((∀ s ∈ (analyze_repository witnessCtx witnessFiles AnalysisMethod.DEPENDENCY 15 2
        (some "o") (some "r") none).sections, 2 ≤ s.2.length) ∨
      (analyze_repository witnessCtx witnessFiles AnalysisMethod.DEPENDENCY 15 2
        (some "o") (some "r") none).sections.length = 1) :=
  ⟨by decide, by rfl,
   C2_size_floor witnessCtx witnessFiles AnalysisMethod.DEPENDENCY 15 2
     (some "o") (some "r") none (by decide) (by rfl)⟩

/-- A stored structure record whose file list matches the witness file map's
key set exactly and which holds a two-section mapping. -/
def c1Structure : StructureData :=
  ⟨["a.py", "b.py", "c.py"],
   [("stored/one", ["a.py", "b.py"]), ("stored/two", ["c.py"])]⟩

/-- An analyzer context with caching enabled, code search available and the
stored structure record present in the cache. -/
def c1Ctx : AnalyzerCtx :=
  ⟨true, true, some c1Structure,
   fun fm _ _ _ _ => [("core", fm)],
   fun fm _ => [("deps", fm)],
   fun fm _ => [("root", fm)],
   fun fm _ => [("hybrid", fm)],
   fun _ _ _ => [],
   fun fm _ _ => [("grp", fm)]⟩

/-- C1 counterexample: with caching enabled and a stored structure record
whose recorded file list equals exactly the key set of the current file map,
a STRUCTURAL run still invokes the partition strategy and does not return
the cached reconstruction - src/SectionAnalyzer.py line 68 consults the
cache only for methods DEPENDENCY and HYBRID, so the claim fails for "any
analysis method". -/
theorem C1_counterexample :
    (sameKeySet (witnessFiles.map (fun kv => kv.1)) c1Structure.files = true)
  ∧ ((analyze_repository c1Ctx witnessFiles AnalysisMethod.STRUCTURAL 15 2
      (some "o") (some "r") none).strategyInvoked = true)
  ∧ ((analyze_repository c1Ctx witnessFiles AnalysisMethod.STRUCTURAL 15 2
      (some "o") (some "r") none).sections ≠ replaySections witnessFiles c1Structure) :=
  ⟨by decide, by rfl, by decide⟩

/-- C1 amended: with caching enabled, truthy owner and repo, and method
DEPENDENCY or HYBRID, if a stored structure record exists whose recorded
file list equals (as a set) the key set of the current file map and whose
stored section mapping reconstructs - content re-joined from the current
file map - to a non-empty section list, then analyze_repository returns
exactly that reconstruction, performs no cache write, and invokes no
partition strategy; with method STRUCTURAL the cache record is never
consulted and the strategy always runs. -/
theorem C1_cache_replay_amended (ctx : AnalyzerCtx) (repo_files : FileMap)
    (method : AnalysisMethod) (max_section_size min_section_size : Nat)
    (owner repo branch : Option String) (cached : StructureData)
    (huc : ctx.use_cache = true)
    (how : truthyS owner = true)
    (hrep : truthyS repo = true)
    (hm : method = AnalysisMethod.DEPENDENCY ∨ method = AnalysisMethod.HYBRID)
    (hcs : ctx.cached_structure = some cached)
    (hfp : sameKeySet (repo_files.map (fun kv => kv.1)) cached.files = true)
    (hne : replaySections repo_files cached ≠ []) :
    analyze_repository ctx repo_files method max_section_size min_section_size
      owner repo branch = ⟨replaySections repo_files cached, [], false⟩ := by
  have hsec : cached.sections ≠ [] := by
    intro h
    apply hne
    unfold replaySections
    rw [h]
    rfl
  have hsie : (!cached.sections.isEmpty) = true := by
    cases h : cached.sections with
    | nil => exact absurd h hsec
    | cons a l => rfl
  have hrie : (!(replaySections repo_files cached).isEmpty) = true := by
    cases h : replaySections repo_files cached with
    | nil => exact absurd h hne
    | cons a l => rfl
  have hcond : (ctx.use_cache && truthyS owner && truthyS repo &&
      (method == AnalysisMethod.DEPENDENCY || method == AnalysisMethod.HYBRID)) = true := by
    rcases hm with h | h <;> simp [huc, how, hrep, h]
  have hreplay : tryCacheReplay ctx repo_files method owner repo =
      some (replaySections repo_files cached) := by
    unfold tryCacheReplay
    rw [if_pos hcond, hcs]
    dsimp only
    rw [if_pos hfp, if_pos hsie, if_pos hrie]
  unfold analyze_repository
  rw [hreplay]

/-- Witness for C1 amended, at a concrete DEPENDENCY run over the witness
file map with the stored two-section record: the result is the cached
reconstruction, no cache write, no strategy invocation. -/
theorem C1_cache_replay_amended_witness :
    (c1Ctx.use_cache = true)
  ∧ (truthyS (some "o") = true)
  ∧ (sameKeySet (witnessFiles.map (fun kv => kv.1)) c1Structure.files = true)
  ∧ (replaySections witnessFiles c1Structure ≠ [])
  ∧ (analyze_repository c1Ctx witnessFiles AnalysisMethod.DEPENDENCY 15 2
      (some "o") (some "r") none =
      ⟨replaySections witnessFiles c1Structure, [], false⟩) :=
  ⟨rfl, by decide, by decide, by decide,
   C1_cache_replay_amended c1Ctx witnessFiles AnalysisMethod.DEPENDENCY 15 2
     (some "o") (some "r") none c1Structure rfl (by decide) (by decide)
     (Or.inl rfl) rfl (by decide) (by decide)⟩

/-- An analyzer context with caching enabled, code search available and no
stored structure record, used to drive the persistence path. -/
def c3Ctx : AnalyzerCtx :=
  ⟨true, true, none,
   fun fm _ _ _ _ => [("core", fm)],
   fun fm _ => [("deps", fm)],
   fun fm _ => [("root", fm)],
   fun fm _ => [("hybrid", fm)],
   fun _ _ _ => [],
   fun fm _ _ => [("grp", fm)]⟩

/-- C3, code bug: on a caching run the only cache writes are
update_structure_cache(owner, repo, repo_files, branch) - whose payload is
the raw current file map - and save_repo_metadata with section count,
method name and per-section sizes. The structure_data dict that
src/SectionAnalyzer.py lines 150-158 build, holding the
section-name-to-path-list mapping, the file-list fingerprint and the method
name, is never passed to any cache call (line 160 passes repo_files
instead), so the structure record the claim and the spec describe is not
persisted. This concrete DEPENDENCY run exhibits the two writes and their
payloads. -/
theorem C3_structure_record_not_persisted :
    (analyze_repository c3Ctx witnessFiles AnalysisMethod.DEPENDENCY 15 2
      (some "o") (some "r") none).ops =
    [CacheOp.update_structure_cache "o" "r" witnessFiles none,
     CacheOp.save_repo_metadata "o" "r" ⟨1, "DEPENDENCY", [("core", 3)]⟩ none] := by
  decide

theorem sectionDeps_congr (files : FileMap) :
    ∀ (d1 d2 : List (String × List String)),
      d1.map (fun sd => (sd.1, sd.2.toFinset)) = d2.map (fun sd => (sd.1, sd.2.toFinset)) →
      sectionDeps files d1 = sectionDeps files d2 := by
  intro d1
  induction d1 with
  | nil =>
    intro d2 h
    cases d2 with
    | nil => rfl
    | cons b bs => simp at h
  | cons a as ih =>
    intro d2 h
    cases d2 with
    | nil => simp at h
    | cons b bs =>
      simp only [List.map_cons, List.cons.injEq, Prod.mk.injEq] at h
      obtain ⟨⟨hk, hv⟩, ht⟩ := h
      have hfv : (a.2.filter (fun tgt => hasKey files tgt)).toFinset =
          (b.2.filter (fun tgt => hasKey files tgt)).toFinset := by
        rw [List.toFinset_filter, List.toFinset_filter, hv]
      have htail := ih bs ht
      unfold sectionDeps at htail ⊢
      simp only [List.filter_cons, hk]
      by_cases hkk : hasKey files b.1 = true
      · rw [if_pos hkk, if_pos hkk]
        simp only [List.map_cons]
        rw [hk, hfv, htail]
      · rw [if_neg hkk, if_neg hkk]
        exact htail

theorem dispatchSections_extract_congr (use_cache has_code_search : Bool)
    (cached : Option StructureData)
    (eda : FileMap → String → String → Nat → Option String → SectionList)
    (da sa ha : FileMap → Nat → SectionList)
    (ex1 ex2 : FileMap → String → String → List (String × List String))
    (gbd : FileMap → List (String × Finset String) → Nat → SectionList)
    (hset : ∀ fm o r, (ex1 fm o r).map (fun sd => (sd.1, sd.2.toFinset)) =
        (ex2 fm o r).map (fun sd => (sd.1, sd.2.toFinset)))
    (repo_files : FileMap) (method : AnalysisMethod) (max_section_size : Nat)
    (owner repo branch : Option String) :
    dispatchSections ⟨use_cache, has_code_search, cached, eda, da, sa, ha, ex1, gbd⟩
      repo_files method max_section_size owner repo branch =
    dispatchSections ⟨use_cache, has_code_search, cached, eda, da, sa, ha, ex2, gbd⟩
      repo_files method max_section_size owner repo branch := by
  unfold dispatchSections
  cases method with
  | STRUCTURAL => rfl
  | DEPENDENCY => rfl
  | HYBRID =>
    dsimp only
    by_cases hc : (has_code_search && truthyS owner && truthyS repo) = true
    · rw [if_pos hc, if_pos hc]
      have hsd : ∀ files : FileMap,
          sectionDeps files (ex1 repo_files (owner.getD "") (repo.getD "")) =
          sectionDeps files (ex2 repo_files (owner.getD "") (repo.getD "")) :=
        fun files => sectionDeps_congr files _ _ (hset repo_files _ _)
      simp only [hsd]
    · rw [if_neg hc, if_neg hc]

/-- C7: partitioning an identical file map with identical parameters and
caching disabled is deterministic: the section names, membership and order
of the result do not depend on the iteration order of the Python sets that
carry the extracted dependencies - two runs whose dependency extraction
agrees up to set value (hset) produce syntactically equal SectionSets, the
remaining pipeline being a pure function of its inputs. -/
theorem C7_partition_determinism (use_cache has_code_search : Bool)
    (cached : Option StructureData)
    (eda : FileMap → String → String → Nat → Option String → SectionList)
    (da sa ha : FileMap → Nat → SectionList)
    (ex1 ex2 : FileMap → String → String → List (String × List String))
    (gbd : FileMap → List (String × Finset String) → Nat → SectionList)
    (hset : ∀ fm o r, (ex1 fm o r).map (fun sd => (sd.1, sd.2.toFinset)) =
        (ex2 fm o r).map (fun sd => (sd.1, sd.2.toFinset)))
    (huc : use_cache = false)
    (repo_files : FileMap) (method : AnalysisMethod)
    (max_section_size min_section_size : Nat) (owner repo branch : Option String) :
    (analyze_repository ⟨use_cache, has_code_search, cached, eda, da, sa, ha, ex1, gbd⟩
        repo_files method max_section_size min_section_size owner repo branch).sections =
    (analyze_repository ⟨use_cache, has_code_search, cached, eda, da, sa, ha, ex2, gbd⟩
        repo_files method max_section_size min_section_size owner repo branch).sections := by
  subst huc
  have hdisp := dispatchSections_extract_congr false has_code_search cached eda da sa ha
    ex1 ex2 gbd hset repo_files method max_section_size owner repo branch
  unfold analyze_repository
  have hr1 : tryCacheReplay
      ⟨false, has_code_search, cached, eda, da, sa, ha, ex1, gbd⟩
      repo_files method owner repo = none := rfl
  have hr2 : tryCacheReplay
      ⟨false, has_code_search, cached, eda, da, sa, ha, ex2, gbd⟩
      repo_files method owner repo = none := rfl
  rw [hr1, hr2]
  dsimp only
  rw [hdisp]

/-- Dependency extraction for the C7 witness: the same set value in two
iteration orders, as Python hash randomization would produce across runs. -/
def c7Ex1 : FileMap → String → String → List (String × List String) :=
  fun _ _ _ => [("a.py", ["b.py", "c.py"])]

/-- The C7 witness extraction in the opposite iteration order. -/
def c7Ex2 : FileMap → String → String → List (String × List String) :=
  fun _ _ _ => [("a.py", ["c.py", "b.py"])]

/-- Witness for C7 at a concrete enhanced-HYBRID run with
max_section_size 1, which drives the inline refinement through
_group_by_dependencies with the extracted dependency sets: the two
iteration orders yield identical SectionSets. -/
theorem C7_partition_determinism_witness :
    ((c7Ex1 witnessFiles "o" "r").map (fun sd => (sd.1, sd.2.toFinset)) =
      (c7Ex2 witnessFiles "o" "r").map (fun sd => (sd.1, sd.2.toFinset)))
  ∧ ((analyze_repository
        ⟨false, true, none,
         fun fm _ _ _ _ => [("core", fm)],
         fun fm _ => [("deps", fm)],
         fun fm _ => [("root", fm)],
         fun fm _ => [("hybrid", fm)],
         c7Ex1,
         fun fm _ _ => [("grp", fm)]⟩
        witnessFiles AnalysisMethod.HYBRID 1 2 (some "o") (some "r") none).sections =
      (analyze_repository
        ⟨false, true, none,
         fun fm _ _ _ _ => [("core", fm)],
         fun fm _ => [("deps", fm)],
         fun fm _ => [("root", fm)],
         fun fm _ => [("hybrid", fm)],
         c7Ex2,
         fun fm _ _ => [("grp", fm)]⟩
        witnessFiles AnalysisMethod.HYBRID 1 2 (some "o") (some "r") none).sections) :=
  ⟨by decide,
   C7_partition_determinism false true none
     (fun fm _ _ _ _ => [("core", fm)])
     (fun fm _ => [("deps", fm)])
     (fun fm _ => [("root", fm)])
     (fun fm _ => [("hybrid", fm)])
     c7Ex1 c7Ex2
     (fun fm _ _ => [("grp", fm)])
     (fun _ _ _ => by
       show List.map (fun sd => (sd.1, sd.2.toFinset))
            [("a.py", ["b.py", "c.py"])] =
          List.map (fun sd => (sd.1, sd.2.toFinset))
            [("a.py", ["c.py", "b.py"])]
       decide) rfl
     witnessFiles AnalysisMethod.HYBRID 1 2 (some "o") (some "r") none⟩

/-- The method names resolvable by hasattr on a GithubClientMCP instance:
the class dict of src/GithubClientMCP.py plus the methods inherited from
GithubClientBase. -/
def mcpClientAttrs : List String :=
  ["call_mcp_tool", "_list_repository_files", "_get_file_content",
   "_get_default_branch", "search_code", "search_references",
   "get_repository_stats", "list_repository_files", "get_file_content",
   "get_repository_structure", "has_code_search"]

/-- The method names resolvable by hasattr on a GithubClientDirect instance:
the class dict of src/GithubClientDirect.py plus the methods inherited from
GithubClientBase - there is no search_references and no search_code. -/
def directClientAttrs : List String :=
  ["_list_repository_files", "_get_file_content", "_get_default_branch",
   "get_repository_stats", "list_repository_files", "get_file_content",
   "get_repository_structure", "has_code_search"]

/-- Translation of GithubClientBase.has_code_search
(src/GithubClientBase.py lines 256-263): hasattr(self, "search_references")
and callable(getattr(self, "search_references")) - a reflection probe over
the instance's resolvable attribute names; resolved methods are always
callable. -/
def has_code_search (attrs : List String) : Bool :=
  attrs.contains "search_references"

/-- Translation of SectionAnalyzer.__init__ lines 40-43: the analyzer
starts from False, probes hasattr(github_client, "has_code_search") and,
when the attribute is present, calls it and caches the boolean; a missing
client (None) leaves False. -/
def sectionAnalyzerFlag (github_client : Option (List String)) : Bool :=
  match github_client with
  | none => false
  | some attrs =>
    if attrs.contains "has_code_search" then has_code_search attrs else false

/-- A Python client instance as far as the capability machinery observes
it: its resolvable attribute names and its constructor-settable state. -/
structure PyClientObj where
  attrs : List String
  use_cache : Bool
deriving DecidableEq

/-- The constructor of GithubClientMCP (src/GithubClientMCP.py lines
16-25): __init__(use_cache, claude_executable). It has no capability
parameter; the attribute table is fixed by the class (claude_executable
only selects the CLI binary and is irrelevant to the capability). -/
def mkMCPClient (use_cache : Bool) (_claude_executable : Option String) : PyClientObj :=
  ⟨mcpClientAttrs, use_cache⟩

/-- The constructor of GithubClientDirect (src/GithubClientDirect.py lines
14-28): __init__(github_token, use_cache). It has no capability parameter
either. -/
def mkDirectClient (_github_token : Option String) (use_cache : Bool) : PyClientObj :=
  ⟨directClientAttrs, use_cache⟩

/-- C9 counterexample: the capability is not a boolean flag settable at
client construction, and it is probed dynamically. Neither constructor
takes a capability parameter, so every argument choice yields the same
class-determined value (first two conjuncts); and the cached value flips
when the probed attribute table changes while every constructor-settable
datum is unchanged (last two conjuncts) - the flag is computed by the
hasattr probes of GithubClientBase.has_code_search and
SectionAnalyzer.__init__, refuting "settable at construction" and "never
probes for the capability dynamically". -/
theorem C9_counterexample :
    (sectionAnalyzerFlag (some (mkMCPClient false none).attrs) = true
      ∧ sectionAnalyzerFlag (some (mkMCPClient true (some "claude")).attrs) = true)
  ∧ (sectionAnalyzerFlag (some (mkDirectClient none false).attrs) = false
      ∧ sectionAnalyzerFlag (some (mkDirectClient (some "token") true).attrs) = false)
  ∧ (sectionAnalyzerFlag (some (mkDirectClient none false).attrs) = false
      ∧ sectionAnalyzerFlag
          (some ("search_references" :: (mkDirectClient none false).attrs)) = true) :=
  ⟨⟨by decide, by decide⟩, ⟨by decide, by decide⟩, ⟨by decide, by decide⟩⟩

/-- C9 amended: the search capability is derived dynamically by reflection:
GithubClientBase.has_code_search() reports whether the instance resolves a
callable search_references attribute, and SectionAnalyzer.__init__ itself
probes hasattr(client, "has_code_search") before calling it, caching the
result in a boolean that the dispatch then reads; the cached value equals
the conjunction of the two probes, is True for the MCP-bridge client and
False for the direct-API client for every constructor argument, and is not
settable at construction. -/
theorem C9_capability_flag_amended (attrs : List String) :
    (sectionAnalyzerFlag none = false)
  ∧ (sectionAnalyzerFlag (some attrs) =
      (attrs.contains "has_code_search" && attrs.contains "search_references"))
  ∧ (∀ (uc : Bool) (exe : Option String),
      sectionAnalyzerFlag (some (mkMCPClient uc exe).attrs) = true)
  ∧ (∀ (token : Option String) (uc : Bool),
      sectionAnalyzerFlag (some (mkDirectClient token uc).attrs) = false) := by
  refine ⟨rfl, ?_,
    fun _ _ => by
      show sectionAnalyzerFlag (some mcpClientAttrs) = true
      decide,
    fun _ _ => by
      show sectionAnalyzerFlag (some directClientAttrs) = false
      decide⟩
  unfold sectionAnalyzerFlag has_code_search
  dsimp only
  by_cases h : attrs.contains "has_code_search" = true
  · rw [if_pos h, h, Bool.true_and]
  · have hf : attrs.contains "has_code_search" = false := by
      cases hh : attrs.contains "has_code_search"
      · rfl
      · exact absurd hh h
    rw [if_neg h, hf, Bool.false_and]

/-- A concrete code-search oracle for the C8 witness: one page with two
referencing paths. -/
def c8Pages : String → Nat → Nat → Option SearchPage :=
  fun _query page _per_page =>
    if page = 1 then some ⟨["user.py", "main.py"], 2⟩ else some ⟨[], 2⟩

/-- Witness for C8 at a concrete oracle and file: the membership
characterization and the caps instantiated at "util.py". -/
theorem C8_search_references_union_witness :
    ("main.py" ∈ search_references c8Pages "o" "r" "util.py" ↔
      "main.py" ≠ "util.py" ∧ ∃ query ∈ buildQueries "util.py",
        "main.py" ∈ search_code (c8Pages (sc_query "o" "r" query)) 100)
  ∧ ((search_references c8Pages "o" "r" "util.py").length ≤ 300) :=
  ⟨(C8_search_references_union c8Pages "o" "r" "util.py" "main.py").1,
   (C8_search_references_union c8Pages "o" "r" "util.py" "main.py").2.2⟩

/-- Witness for C9 amended at the two real client attribute tables. -/
theorem C9_capability_flag_amended_witness :
    (sectionAnalyzerFlag (some mcpClientAttrs) =
      (mcpClientAttrs.contains "has_code_search" &&
        mcpClientAttrs.contains "search_references"))
  ∧ (sectionAnalyzerFlag (some directClientAttrs) =
      (directClientAttrs.contains "has_code_search" &&
        directClientAttrs.contains "search_references")) :=
  ⟨(C9_capability_flag_amended mcpClientAttrs).2.1,
   (C9_capability_flag_amended directClientAttrs).2.1⟩
